import Mathlib

/-!
Verification of the document-construction core of the sample browser engine
(saba_core): the HTML tokenizer (renderer/html/token.rs), the tree
constructor (renderer/html/parser.rs), the DOM node model
(renderer/dom/node.rs), and the CSS tokenizer/parser
(renderer/css/token.rs, renderer/css/cssom.rs).

The embedding is shallow and executable.  Rust `Vec<char>` becomes
`List Char`, `String` stays `String`, shared mutable `Rc<RefCell<Node>>`
trees become an arena (`List PNode`) addressed by integer indices, and
every Rust loop becomes a fuel-indexed recursion; a distinguished
constructor records a run that exhausts its fuel, and another records a
run that reaches a Rust `panic!` / failed `assert!` / out-of-bounds index.
-/

/-! ## Character helpers (Rust `char` predicates used by the sources) -/

def isAsciiUpper (c : Char) : Bool :=
  65 ≤ c.toNat && c.toNat ≤ 90

def isAsciiLower (c : Char) : Bool :=
  97 ≤ c.toNat && c.toNat ≤ 122

/-- Rust `char::is_ascii_alphabetic`. -/
def isAsciiAlpha (c : Char) : Bool :=
  isAsciiUpper c || isAsciiLower c

/-- Rust `char::is_ascii_digit`. -/
def isAsciiDigit (c : Char) : Bool :=
  48 ≤ c.toNat && c.toNat ≤ 57

/-- Rust `char::is_ascii_alphanumeric`. -/
def isAsciiAlphanumeric (c : Char) : Bool :=
  isAsciiAlpha c || isAsciiDigit c

/-- Rust `char::to_ascii_lowercase`. -/
def toAsciiLower (c : Char) : Char :=
  if isAsciiUpper c then Char.ofNat (c.toNat + 32) else c

/-- The character `\x7b` (opening curly bracket). -/
def openCurlyChar : Char := Char.ofNat 123

/-- The character `\x7d` (closing curly bracket). -/
def closeCurlyChar : Char := Char.ofNat 125

/-- The double-quote character. -/
def dquoteChar : Char := Char.ofNat 34

/-- The single-quote character. -/
def squoteChar : Char := Char.ofNat 39

/-! ## HTML tag attributes (renderer/html/html_tag_attribute.rs) -/

inductive AttributeField where
  | name
  | value
deriving DecidableEq, Repr

structure HtmlTagAttribute where
  name : String
  value : String
deriving DecidableEq, Repr

def HtmlTagAttribute.new : HtmlTagAttribute := ⟨"", ""⟩

def HtmlTagAttribute.addChar (a : HtmlTagAttribute) (c : Char) : AttributeField → HtmlTagAttribute
  | .name => { a with name := a.name.push c }
  | .value => { a with value := a.value.push c }

/-! ## HTML tokens and tokenizer state (renderer/html/token.rs) -/

inductive HtmlToken where
  | startTag (tag : String) (selfClosing : Bool) (attributes : List HtmlTagAttribute)
  | endTag (tag : String)
  | char (c : Char)
  | eof
deriving DecidableEq, Repr

inductive TokenizerState where
  | data
  | tagOpen
  | endTagOpen
  | tagName
  | beforeAttributeName
  | attributeName
  | afterAttributeName
  | beforeAttributeValue
  | attributeValueDoubleQuoted
  | attributeValueSingleQuoted
  | attributeValueUnQuoted
  | afterAttributeValueQuoted
  | selfClosingStartTag
  | scriptData
  | scriptDataLessThanSign
  | scriptDataEndTagOpen
  | scriptDataEndTagName
  | temporaryBuffer
deriving DecidableEq, Repr

structure HtmlTokenizer where
  state : TokenizerState
  pos : Nat
  reconsume : Bool
  latestToken : Option HtmlToken
  input : List Char
  buf : List Char
deriving DecidableEq, Repr

def HtmlTokenizer.new (html : String) : HtmlTokenizer :=
  { state := .data, pos := 0, reconsume := false, latestToken := none,
    input := html.data, buf := [] }

/-- `HtmlTokenizer::is_eof`: `self.pos > self.input.len()` (note `>`, not `≥`). -/
def HtmlTokenizer.isEof (tz : HtmlTokenizer) : Bool :=
  tz.input.length < tz.pos

/-- `HtmlTokenizer::consume_next_character`.  The Rust code indexes
`self.input[self.pos - 1]` (after incrementing `pos` in the non-reconsume
case); an out-of-range index panics, which this total embedding returns
as `none`. -/
def consumeNextChar (tz : HtmlTokenizer) : Option (Char × HtmlTokenizer) :=
  if tz.reconsume then
    match tz.input.get? (tz.pos - 1) with
    | some c => some (c, { tz with reconsume := false })
    | none => none
  else
    match tz.input.get? tz.pos with
    | some c => some (c, { tz with pos := tz.pos + 1 })
    | none => none

def createStartTag (tz : HtmlTokenizer) : HtmlTokenizer :=
  { tz with latestToken := some (.startTag "" false []) }

def createEndTag (tz : HtmlTokenizer) : HtmlTokenizer :=
  { tz with latestToken := some (.endTag "") }

/-- `HtmlTokenizer::append_tag_name`; panics (none) unless the latest token
is a start or end tag. -/
def appendTagName (tz : HtmlTokenizer) (c : Char) : Option HtmlTokenizer :=
  match tz.latestToken with
  | some (.startTag tag sc attrs) =>
      some { tz with latestToken := some (.startTag (tag.push c) sc attrs) }
  | some (.endTag tag) =>
      some { tz with latestToken := some (.endTag (tag.push c)) }
  | _ => none

/-- `HtmlTokenizer::emit_latest_token`; asserts the latest token exists. -/
def emitLatestToken (tz : HtmlTokenizer) : Option (HtmlToken × HtmlTokenizer) :=
  match tz.latestToken with
  | some t => some (t, { tz with latestToken := none })
  | none => none

/-- `HtmlTokenizer::start_new_attribute`; panics unless the latest token is
a start tag. -/
def startNewAttribute (tz : HtmlTokenizer) : Option HtmlTokenizer :=
  match tz.latestToken with
  | some (.startTag tag sc attrs) =>
      some { tz with latestToken := some (.startTag tag sc (attrs ++ [HtmlTagAttribute.new])) }
  | _ => none

/-- Replaces the last element of a list; used for
`attributes[len - 1].add_char(..)`. -/
def setLast (l : List HtmlTagAttribute) (a : HtmlTagAttribute) : List HtmlTagAttribute :=
  match l with
  | [] => []
  | [_] => [a]
  | x :: rest => x :: setLast rest a

/-- `HtmlTokenizer::append_character_to_attribute`; panics unless the latest
token is a start tag with at least one attribute. -/
def appendCharToAttribute (tz : HtmlTokenizer) (c : Char) (field : AttributeField) :
    Option HtmlTokenizer :=
  match tz.latestToken with
  | some (.startTag tag sc attrs) =>
      match attrs.getLast? with
      | some a =>
          let newAttrs := setLast attrs (a.addChar c field)
          some { tz with latestToken := some (.startTag tag sc newAttrs) }
      | none => none
  | _ => none

/-- `HtmlTokenizer::set_self_closing_flag`; panics unless the latest token is
a start tag. -/
def setSelfClosingFlag (tz : HtmlTokenizer) : Option HtmlTokenizer :=
  match tz.latestToken with
  | some (.startTag tag _ attrs) =>
      some { tz with latestToken := some (.startTag tag true attrs) }
  | _ => none

/-- Why a tokenizer run can fail: `indexOutOfBounds` is the
`self.input[..]` panic in `consume_next_character`; `assertFailed` covers
the `assert!`/`panic!` paths of the token-buffer helpers. -/
inductive TokCrash where
  | indexOutOfBounds
  | assertFailed
deriving DecidableEq, Repr

/-- Result of one pull on the tokenizer (`<HtmlTokenizer as Iterator>::next`):
`emitted t tz` is `Some(t)`, `ended tz` is `None`, `crashed` is a Rust panic,
and `fuelOut` means the fuel given to the embedded loop ran out. -/
inductive TokResult where
  | emitted (t : HtmlToken) (tz : HtmlTokenizer)
  | ended (tz : HtmlTokenizer)
  | crashed (why : TokCrash)
  | fuelOut
deriving DecidableEq, Repr

/-- The `loop` body of `<HtmlTokenizer as Iterator>::next`, one fuel unit per
iteration.  Each arm is a literal transcription of the corresponding
`TokenizerState` arm of the Rust `match`. -/
def tokNextLoop : Nat → HtmlTokenizer → TokResult
  | 0, _ => .fuelOut
  | f + 1, tz0 =>
    match consumeNextChar tz0 with
    | none => .crashed .indexOutOfBounds
    | some (c, tz) =>
      match tz.state with
      | .data =>
          if c = '<' then tokNextLoop f { tz with state := .tagOpen }
          else if tz.isEof then .emitted .eof tz
          else .emitted (.char c) tz
      | .tagOpen =>
          if c = '/' then tokNextLoop f { tz with state := .endTagOpen }
          else if isAsciiAlpha c then
            tokNextLoop f (createStartTag { tz with reconsume := true, state := .tagName })
          else if tz.isEof then .emitted .eof tz
          else tokNextLoop f { tz with reconsume := true, state := .data }
      | .endTagOpen =>
          if tz.isEof then .emitted .eof tz
          else if isAsciiAlpha c then
            tokNextLoop f (createEndTag { tz with reconsume := true, state := .tagName })
          else tokNextLoop f tz
      | .tagName =>
          if c = ' ' then tokNextLoop f { tz with state := .beforeAttributeName }
          else if c = '/' then tokNextLoop f { tz with state := .selfClosingStartTag }
          else if c = '>' then
            match emitLatestToken { tz with state := .data } with
            | some (t, tz2) => .emitted t tz2
            | none => .crashed .assertFailed
          else if isAsciiUpper c then
            match appendTagName tz (toAsciiLower c) with
            | some tz2 => tokNextLoop f tz2
            | none => .crashed .assertFailed
          else if tz.isEof then .emitted .eof tz
          else
            match appendTagName tz c with
            | some tz2 => tokNextLoop f tz2
            | none => .crashed .assertFailed
      | .beforeAttributeName =>
          if c = '/' || c = '>' || tz.isEof then
            tokNextLoop f { tz with reconsume := true, state := .afterAttributeName }
          else
            match startNewAttribute { tz with reconsume := true, state := .attributeName } with
            | some tz2 => tokNextLoop f tz2
            | none => .crashed .assertFailed
      | .attributeName =>
          if c = ' ' || c = '/' || c = '>' || tz.isEof then
            tokNextLoop f { tz with reconsume := true, state := .afterAttributeName }
          else if c = '=' then
            tokNextLoop f { tz with state := .beforeAttributeValue }
          else if isAsciiUpper c then
            match appendCharToAttribute tz (toAsciiLower c) .name with
            | some tz2 => tokNextLoop f tz2
            | none => .crashed .assertFailed
          else
            match appendCharToAttribute tz c .name with
            | some tz2 => tokNextLoop f tz2
            | none => .crashed .assertFailed
      | .afterAttributeName =>
          if c = ' ' then tokNextLoop f tz
          else if c = '/' then tokNextLoop f { tz with state := .selfClosingStartTag }
          else if c = '=' then tokNextLoop f { tz with state := .beforeAttributeValue }
          else if c = '>' then
            match emitLatestToken { tz with state := .data } with
            | some (t, tz2) => .emitted t tz2
            | none => .crashed .assertFailed
          else if tz.isEof then .emitted .eof tz
          else
            match startNewAttribute { tz with reconsume := true, state := .attributeName } with
            | some tz2 => tokNextLoop f tz2
            | none => .crashed .assertFailed
      | .beforeAttributeValue =>
          if c = ' ' then tokNextLoop f tz
          else if c = dquoteChar then
            tokNextLoop f { tz with state := .attributeValueDoubleQuoted }
          else if c = squoteChar then
            tokNextLoop f { tz with state := .attributeValueSingleQuoted }
          else tokNextLoop f { tz with reconsume := true, state := .attributeValueUnQuoted }
      | .attributeValueDoubleQuoted =>
          if c = dquoteChar then
            tokNextLoop f { tz with state := .afterAttributeValueQuoted }
          else if tz.isEof then .emitted .eof tz
          else
            match appendCharToAttribute tz c .value with
            | some tz2 => tokNextLoop f tz2
            | none => .crashed .assertFailed
      | .attributeValueSingleQuoted =>
          if c = squoteChar then
            tokNextLoop f { tz with state := .afterAttributeValueQuoted }
          else if tz.isEof then .emitted .eof tz
          else
            match appendCharToAttribute tz c .value with
            | some tz2 => tokNextLoop f tz2
            | none => .crashed .assertFailed
      | .attributeValueUnQuoted =>
          if c = ' ' then tokNextLoop f { tz with state := .beforeAttributeName }
          else if c = '>' then
            match emitLatestToken { tz with state := .data } with
            | some (t, tz2) => .emitted t tz2
            | none => .crashed .assertFailed
          else if tz.isEof then .emitted .eof tz
          else
            match appendCharToAttribute tz c .value with
            | some tz2 => tokNextLoop f tz2
            | none => .crashed .assertFailed
      | .afterAttributeValueQuoted =>
          if c = ' ' then tokNextLoop f { tz with state := .beforeAttributeName }
          else if c = '/' then tokNextLoop f { tz with state := .selfClosingStartTag }
          else if c = '>' then
            match emitLatestToken { tz with state := .data } with
            | some (t, tz2) => .emitted t tz2
            | none => .crashed .assertFailed
          else if tz.isEof then .emitted .eof tz
          else tokNextLoop f { tz with reconsume := true, state := .beforeAttributeName }
      | .selfClosingStartTag =>
          if c = '>' then
            match setSelfClosingFlag { tz with state := .data } with
            | some tz1 =>
              match emitLatestToken tz1 with
              | some (t, tz2) => .emitted t tz2
              | none => .crashed .assertFailed
            | none => .crashed .assertFailed
          else if tz.isEof then .emitted .eof tz
          else tokNextLoop f tz
      | .scriptData =>
          if c = '<' then tokNextLoop f { tz with state := .scriptDataLessThanSign }
          else if tz.isEof then .emitted .eof tz
          else .emitted (.char c) tz
      | .scriptDataLessThanSign =>
          if c = '/' then tokNextLoop f { tz with buf := [], state := .scriptDataEndTagOpen }
          else .emitted (.char '<') { tz with reconsume := true, state := .scriptData }
      | .scriptDataEndTagOpen =>
          -- the Rust arm first assigns reconsume/ScriptDataEndTagName when the
          -- character is alphabetic, then unconditionally overwrites both and
          -- returns, so the alphabetic branch has no observable effect
          .emitted (.char '<') { tz with reconsume := true, state := .scriptData }
      | .scriptDataEndTagName =>
          if c = '>' then
            match emitLatestToken { tz with state := .data } with
            | some (t, tz2) => .emitted t tz2
            | none => .crashed .assertFailed
          else if isAsciiAlpha c then
            match appendTagName { tz with buf := tz.buf ++ [c] } (toAsciiLower c) with
            | some tz2 => tokNextLoop f tz2
            | none => .crashed .assertFailed
          else
            tokNextLoop f
              { tz with state := .temporaryBuffer, buf := ('<' :: '/' :: tz.buf) ++ [c] }
      | .temporaryBuffer =>
          match tz.buf with
          | [] => tokNextLoop f { tz with reconsume := true, state := .scriptData }
          | b :: rest => .emitted (.char b) { tz with reconsume := true, buf := rest }

/-- `<HtmlTokenizer as Iterator>::next`.  The Rust function first returns
`None` when `self.pos >= self.input.len()`, otherwise enters its loop; the
fuel `2 * input.len + 16` is ample for every loop exit reached below (the
result constructor `fuelOut` records the runs for which it would not be). -/
def tokNext (tz : HtmlTokenizer) : TokResult :=
  if tz.input.length ≤ tz.pos then .ended tz
  else tokNextLoop (2 * tz.input.length + 16) tz

/-- Pulls tokens until the tokenizer stops emitting; used to state properties
of whole token streams.  Returns `none` when a pull crashes or fuel is
exhausted; `some ts` when a pull returned "no more input" after `ts`. -/
def tokenizeAll : Nat → HtmlTokenizer → Option (List HtmlToken)
  | 0, _ => none
  | f + 1, tz =>
    match tokNext tz with
    | .emitted t tz2 =>
        match tokenizeAll f tz2 with
        | some ts => some (t :: ts)
        | none => none
    | .ended _ => some []
    | .crashed _ => none
    | .fuelOut => none

/-! ## DOM node model (renderer/dom/node.rs) -/

inductive ElementKind where
  | html
  | head
  | style
  | script
  | body
  | p
  | a
deriving DecidableEq, Repr

/-- `<ElementKind as FromStr>::from_str`.  Note that the source maps the tag
name `"script"` to `ElementKind::Style` (renderer/dom/node.rs line 208); the
embedding reproduces that.  `Err` becomes `none`. -/
def elementKindFromStr (s : String) : Option ElementKind :=
  if s = "html" then some .html
  else if s = "head" then some .head
  else if s = "style" then some .style
  else if s = "script" then some .style
  else if s = "body" then some .body
  else if s = "p" then some .p
  else if s = "a" then some .a
  else none

structure Element where
  kind : ElementKind
  attributes : List HtmlTagAttribute
deriving DecidableEq, Repr

inductive NodeKind where
  | document
  | element (e : Element)
  | text (s : String)
deriving DecidableEq, Repr

/-- `impl PartialEq for NodeKind` (renderer/dom/node.rs lines 160-171): the
Document arm uses `matches!(other, Document)`, the Element arm compares only
`e1.kind == e2.kind`, and the Text arm uses `matches!(other, Text(_))`,
ignoring the strings. -/
def nodeKindEq : NodeKind → NodeKind → Bool
  | .document, other =>
      match other with
      | .document => true
      | _ => false
  | .element e1, other =>
      match other with
      | .element e2 => decide (e1.kind = e2.kind)
      | _ => false
  | .text _, other =>
      match other with
      | .text _ => true
      | _ => false

/-- A node of the arena-embedded tree.  `Rc`/`Weak` references of the Rust
`Node` become indices into the arena; `parent`, `lastChild` and
`prevSibling` are the `Weak` back-references, `firstChild` and `nextSibling`
the owning `Rc`/`Option<Rc>` edges. -/
structure PNode where
  kind : NodeKind
  parent : Option Nat
  firstChild : Option Nat
  lastChild : Option Nat
  prevSibling : Option Nat
  nextSibling : Option Nat
deriving DecidableEq, Repr

/-- `impl PartialEq for Node` (renderer/dom/node.rs lines 88-92): equality of
the `kind` fields only. -/
def nodeEq (n1 n2 : PNode) : Bool :=
  nodeKindEq n1.kind n2.kind

def Node.new (k : NodeKind) : PNode :=
  ⟨k, none, none, none, none, none⟩

/-- `Node::get_element_kind`. -/
def kindAt (nodes : List PNode) (i : Nat) : Option NodeKind :=
  (nodes.get? i).map PNode.kind

def elementKindAt (nodes : List PNode) (i : Nat) : Option ElementKind :=
  match kindAt nodes i with
  | some (.element e) => some e.kind
  | _ => none

/-- In-place update of the node at index `i` (a `borrow_mut()` on the
corresponding `Rc<RefCell<Node>>`). -/
def modifyNode (nodes : List PNode) (i : Nat) (f : PNode → PNode) : List PNode :=
  match nodes, i with
  | [], _ => []
  | n :: rest, 0 => f n :: rest
  | n :: rest, j + 1 => n :: modifyNode rest j f

/-! ## Tree constructor (renderer/html/parser.rs) -/

inductive InsertionMode where
  | initial
  | beforeHtml
  | beforeHead
  | inHead
  | afterHead
  | inBody
  | text
  | afterBody
  | afterAfterBody
deriving DecidableEq, Repr

/-- The `HtmlParser` state.  `window` is the arena: index 0 is the Document
node owned by the `Window`; `stack` is `stack_of_open_elements` with the
head of the list as the stack top (the last element of the Rust `Vec`). -/
structure ParserState where
  nodes : List PNode
  mode : InsertionMode
  originalMode : InsertionMode
  stack : List Nat
  tokenizer : HtmlTokenizer
deriving DecidableEq, Repr

def initParser (html : String) : ParserState :=
  { nodes := [Node.new .document], mode := .initial, originalMode := .initial,
    stack := [], tokenizer := HtmlTokenizer.new html }

/-- The `last_sibling` walk of `insert_element` / `insert_char`: follow
`next_sibling` links from `i` to the end of the sibling chain.  The source
loops unboundedly; sibling chains built by the parser are acyclic, so a fuel
of `nodes.length` always reaches the tail. -/
def lastSiblingIdx (nodes : List PNode) : Nat → Nat → Nat
  | 0, i => i
  | f + 1, i =>
    match (nodes.get? i).bind PNode.nextSibling with
    | some j => lastSiblingIdx nodes f j
    | none => i

/-- Appends the fresh node at index `newIdx` (already the last arena entry)
as the last child of `currentIdx`: the shared tail of `insert_element` and
`insert_char` (walk to the last sibling or set `first_child`, then wire
`next_sibling`/`previous_sibling`/`last_child`/`parent`). -/
def appendAsLastChild (nodes1 : List PNode) (currentIdx newIdx : Nat) : List PNode :=
  let nodes2 :=
    match (nodes1.get? currentIdx).bind PNode.firstChild with
    | some fc =>
        let lastIdx := lastSiblingIdx nodes1 nodes1.length fc
        let na := modifyNode nodes1 lastIdx (fun n => { n with nextSibling := some newIdx })
        modifyNode na newIdx (fun n => { n with prevSibling := some lastIdx })
    | none => modifyNode nodes1 currentIdx (fun n => { n with firstChild := some newIdx })
  let nodes3 := modifyNode nodes2 currentIdx (fun n => { n with lastChild := some newIdx })
  modifyNode nodes3 newIdx (fun n => { n with parent := some currentIdx })

/-- `HtmlParser::insert_element`: `create_element` calls
`Element::new(tag, attrs)`, whose `ElementKind::from_str(..).expect(..)`
panics (`none`) on an unsupported tag name; otherwise the new node is
appended as the last child of the stack top (or of the document when the
stack is empty) and pushed onto the stack. -/
def insertElement (st : ParserState) (tag : String) (attrs : List HtmlTagAttribute) :
    Option ParserState :=
  match elementKindFromStr tag with
  | none => none
  | some k =>
      let currentIdx :=
        match st.stack with
        | i :: _ => i
        | [] => 0
      let newIdx := st.nodes.length
      let nodes1 := st.nodes ++ [Node.new (.element ⟨k, attrs⟩)]
      some { st with nodes := appendAsLastChild nodes1 currentIdx newIdx,
                     stack := newIdx :: st.stack }

/-- `HtmlParser::insert_char`.  With an empty stack the character is
swallowed.  When the current node (the stack top) is a Text node the Rust
code runs `if let NodeKind::Text(mut s) = current.borrow_mut().node_kind()
\x7b s.push(c); return; \x7d`; `node_kind()` returns a clone of the kind, so
the push mutates a local copy and the tree node is left unchanged — the
embedding therefore returns the state unmodified in that branch.  Otherwise
whitespace is dropped, and any other character becomes a fresh one-character
Text node appended as last child and pushed onto the stack. -/
def insertChar (st : ParserState) (c : Char) : ParserState :=
  match st.stack with
  | [] => st
  | currentIdx :: _ =>
      match kindAt st.nodes currentIdx with
      | some (.text _) => st
      | _ =>
          if c = '\n' ∨ c = ' ' then st
          else
            let newIdx := st.nodes.length
            let nodes1 := st.nodes ++ [Node.new (.text (String.singleton c))]
            { st with nodes := appendAsLastChild nodes1 currentIdx newIdx,
                      stack := newIdx :: st.stack }

/-- `HtmlParser::pop_until`: pop until a node of `kind` has been popped or
the stack is emptied. -/
def popUntil (nodes : List PNode) (kind : ElementKind) : List Nat → List Nat
  | [] => []
  | i :: rest =>
      if elementKindAt nodes i = some kind then rest
      else popUntil nodes kind rest

/-- `HtmlParser::contain_in_stack`. -/
def containInStack (nodes : List PNode) (kind : ElementKind) (stack : List Nat) : Bool :=
  stack.any fun i => decide (elementKindAt nodes i = some kind)

/-- `HtmlParser::pop_current_node`: pop the top only if it has `kind`;
returns whether it popped. -/
def popCurrentNode (nodes : List PNode) (kind : ElementKind) (stack : List Nat) :
    Bool × List Nat :=
  match stack with
  | [] => (false, [])
  | i :: rest =>
      if elementKindAt nodes i = some kind then (true, rest)
      else (false, i :: rest)

/-- Outcome of one iteration of the `construct_tree` loop body:
`ret` is `return self.window.clone()`, `crash` a Rust panic,
`cont st tok` a `continue` that keeps (or replaces) the current token
without pulling the tokenizer, and `contPull st` a
`token = self.tokenizer.next(); continue`. -/
inductive StepResult where
  | ret (st : ParserState)
  | crash
  | cont (st : ParserState) (token : Option HtmlToken)
  | contPull (st : ParserState)
deriving DecidableEq, Repr

/-- One iteration of the `construct_tree` loop body on a present token, a
literal transcription of the `match self.current_mode` in
renderer/html/parser.rs lines 41-277.  Noteworthy source facts reproduced
here: the AfterHead arm sets `current_mode = InsertionMode::InHead` (lines
161 and 172) after inserting the body element, and the InBody arm leaves
character and start-tag tokens unconsumed with the mode unchanged. -/
def parseStep (st : ParserState) (tk : HtmlToken) : StepResult :=
  match st.mode with
  | .initial =>
      match tk with
      | .char _ => .contPull st
      | _ => .cont { st with mode := .beforeHtml } (some tk)
  | .beforeHtml =>
      match tk with
      | .char c =>
          if c = ' ' ∨ c = '\n' then .contPull st
          else
            match insertElement st "html" [] with
            | some st2 => .cont { st2 with mode := .beforeHead } (some tk)
            | none => .crash
      | .startTag tag _ attrs =>
          if tag = "html" then
            match insertElement st tag attrs with
            | some st2 => .contPull { st2 with mode := .beforeHead }
            | none => .crash
          else
            match insertElement st "html" [] with
            | some st2 => .cont { st2 with mode := .beforeHead } (some tk)
            | none => .crash
      | .eof => .ret st
      | .endTag _ =>
          match insertElement st "html" [] with
          | some st2 => .cont { st2 with mode := .beforeHead } (some tk)
          | none => .crash
  | .beforeHead =>
      match tk with
      | .char c =>
          if c = ' ' ∨ c = '\n' then .contPull st
          else
            match insertElement st "head" [] with
            | some st2 => .cont { st2 with mode := .inHead } (some tk)
            | none => .crash
      | .startTag tag _ attrs =>
          if tag = "head" then
            match insertElement st tag attrs with
            | some st2 => .contPull { st2 with mode := .inHead }
            | none => .crash
          else
            match insertElement st "head" [] with
            | some st2 => .cont { st2 with mode := .inHead } (some tk)
            | none => .crash
      | .eof => .ret st
      | .endTag _ =>
          match insertElement st "head" [] with
          | some st2 => .cont { st2 with mode := .inHead } (some tk)
          | none => .crash
  | .inHead =>
      match tk with
      | .char _ => .contPull st
      | .startTag tag _ attrs =>
          if tag = "style" ∨ tag = "script" then
            match insertElement st tag attrs with
            | some st2 => .contPull { st2 with originalMode := st.mode, mode := .text }
            | none => .crash
          else if tag = "body" then
            .cont { st with stack := popUntil st.nodes .head st.stack,
                            mode := .afterHead } (some tk)
          else
            match elementKindFromStr tag with
            | some _ =>
                .cont { st with stack := popUntil st.nodes .head st.stack,
                                mode := .afterHead } (some tk)
            | none => .contPull st
      | .endTag tag =>
          if tag = "head" then
            .contPull { st with mode := .afterHead,
                                stack := popUntil st.nodes .head st.stack }
          else .contPull st
      | .eof => .ret st
  | .afterHead =>
      match tk with
      | .char c =>
          if c = ' ' ∨ c = '\n' then .contPull st
          else
            match insertElement st "body" [] with
            | some st2 => .cont { st2 with mode := .inHead } (some tk)
            | none => .crash
      | .startTag tag _ attrs =>
          if tag = "body" then
            match insertElement st tag attrs with
            | some st2 => .contPull { st2 with mode := .inHead }
            | none => .crash
          else
            match insertElement st "body" [] with
            | some st2 => .cont { st2 with mode := .inHead } (some tk)
            | none => .crash
      | .eof => .ret st
      | .endTag _ =>
          match insertElement st "body" [] with
          | some st2 => .cont { st2 with mode := .inHead } (some tk)
          | none => .crash
  | .inBody =>
      match tk with
      | .endTag tag =>
          if tag = "body" then
            let st1 := { st with mode := .afterBody }
            if containInStack st.nodes .body st.stack then
              .contPull { st1 with stack := popUntil st.nodes .body st.stack }
            else .contPull st1
          else if tag = "html" then
            match popCurrentNode st.nodes .body st.stack with
            | (true, stack1) =>
                match popCurrentNode st.nodes .html stack1 with
                | (true, stack2) =>
                    .cont { st with mode := .afterBody, stack := stack2 } (some tk)
                | (false, _) => .crash
            | (false, _) => .contPull st
          else .contPull st
      | .eof => .ret st
      | .char _ => .cont st (some tk)
      | .startTag _ _ _ => .cont st (some tk)
  | .text =>
      match tk with
      | .eof => .ret st
      | .endTag tag =>
          if tag = "style" then
            .contPull { st with stack := popUntil st.nodes .style st.stack,
                                mode := st.originalMode }
          else if tag = "script" then
            .contPull { st with stack := popUntil st.nodes .script st.stack,
                                mode := st.originalMode }
          else .cont { st with mode := st.originalMode } (some tk)
      | .char c => .contPull (insertChar st c)
      | .startTag _ _ _ => .cont { st with mode := st.originalMode } (some tk)
  | .afterBody =>
      match tk with
      | .char _ => .contPull st
      | .endTag tag =>
          if tag = "html" then .contPull { st with mode := .afterAfterBody }
          else .cont { st with mode := .inBody } (some tk)
      | .eof => .ret st
      | .startTag _ _ _ => .cont { st with mode := .inBody } (some tk)
  | .afterAfterBody =>
      match tk with
      | .char _ => .contPull st
      | .eof => .ret st
      | _ => .cont { st with mode := .inBody } (some tk)

/-- Result of `HtmlParser::construct_tree`: `finished st` is the normal
return of the window (the whole parser state is kept so that the final
arena and stack can be inspected); `crashed` a Rust panic in the parser or
tokenizer; `fuelOut` an execution that ran out of fuel (one unit per loop
iteration). -/
inductive RunResult where
  | finished (st : ParserState)
  | crashed
  | fuelOut
deriving DecidableEq, Repr

/-- The `construct_tree` loop: `while token.is_some()` around `parseStep`. -/
def constructTree : Nat → ParserState → Option HtmlToken → RunResult
  | 0, _, _ => .fuelOut
  | f + 1, st, token =>
    match token with
    | none => .finished st
    | some tk =>
      match parseStep st tk with
      | .ret st2 => .finished st2
      | .crash => .crashed
      | .cont st2 tok2 => constructTree f st2 tok2
      | .contPull st2 =>
          match tokNext st2.tokenizer with
          | .emitted t tz => constructTree f { st2 with tokenizer := tz } (some t)
          | .ended tz => constructTree f { st2 with tokenizer := tz } none
          | .crashed _ => .crashed
          | .fuelOut => .fuelOut

/-- `HtmlParser::new(tokenizer).construct_tree()`: the initial
`let mut token = self.tokenizer.next();` followed by the loop. -/
def runParser (html : String) (fuel : Nat) : RunResult :=
  let st := initParser html
  match tokNext st.tokenizer with
  | .emitted t tz => constructTree fuel { st with tokenizer := tz } (some t)
  | .ended tz => constructTree fuel { st with tokenizer := tz } none
  | .crashed _ => .crashed
  | .fuelOut => .fuelOut

/-! ## CSS tokens and tokenizer (renderer/css/token.rs) -/

/-- `CssToken`.  The source's `Number` carries an `f64` accumulated digit by
digit; the embedding accumulates the same digits over `ℚ` (exact where the
source rounds).  No claim below concerns numeric values. -/
inductive CssToken where
  | hashToken (s : String)
  | delim (c : Char)
  | number (q : ℚ)
  | colon
  | semiColon
  | openParenthesis
  | closeParenthesis
  | openCurly
  | closeCurly
  | ident (s : String)
  | stringToken (s : String)
  | atKeyword (s : String)
deriving DecidableEq, Repr

structure CssTokenizer where
  pos : Nat
  input : List Char
deriving DecidableEq, Repr

def CssTokenizer.new (css : String) : CssTokenizer :=
  { pos := 0, input := css.data }

/-- Rust `char::is_whitespace` (Unicode White_Space), restricted to the code
points that can occur in the ASCII inputs considered here. -/
def isRustWhitespace (c : Char) : Bool :=
  decide (c.toNat = 32) || (decide (9 ≤ c.toNat) && decide (c.toNat ≤ 13))

/-- `CssTokenizer::consume_string_at`: scan from the opening quote at
`start` to the matching quote (or end of input), returning the contents and
the position of the closing quote. -/
def consumeStringGo (input : List Char) (ending : Char) : Nat → Nat → String → String × Nat
  | 0, pos, s => (s, pos)
  | f + 1, pos, s =>
    match input.get? pos with
    | none => (s, pos)
    | some c =>
        if c = ending then (s, pos)
        else consumeStringGo input ending f (pos + 1) (s.push c)

def consumeStringAt (input : List Char) (start : Nat) : String × Nat :=
  let ending := (input.get? start).getD ' '
  consumeStringGo input ending (input.length - start) (start + 1) ""

/-- `CssTokenizer::consume_numeric_at`: digits accumulate into the integer
part until the first dot, then into the fractional part with a decaying
factor; a second dot (or any other character) ends the number. -/
def consumeNumericGo (input : List Char) : Nat → Nat → ℚ → Bool → ℚ → ℚ × Nat
  | 0, pos, num, _, _ => (num, pos)
  | f + 1, pos, num, floating, factor =>
    match input.get? pos with
    | none => (num, pos)
    | some c =>
        if isAsciiDigit c then
          let digit : ℚ := (c.toNat - 48 : Nat)
          if floating then
            consumeNumericGo input f (pos + 1) (num + digit * (factor * (1 / 10)))
              floating (factor * (1 / 10))
          else
            consumeNumericGo input f (pos + 1) (num * 10 + digit) floating factor
        else if c = '.' ∧ floating = false then
          consumeNumericGo input f (pos + 1) num true factor
        else (num, pos)

def consumeNumericAt (input : List Char) (start : Nat) : ℚ × Nat :=
  consumeNumericGo input (input.length - start) start 0 false 1

/-- The character class accepted inside identifiers by
`CssTokenizer::consume_ident_at`: ASCII alphanumerics, `-`, `_` and `#`
(the source accepts `#` at every position, not only as a leading hash). -/
def isCssIdentChar (c : Char) : Bool :=
  isAsciiAlphanumeric c || decide (c = '-') || decide (c = '_') || decide (c = '#')

/-- `CssTokenizer::consume_ident_at`. -/
def consumeIdentGo (input : List Char) : Nat → Nat → String → String × Nat
  | 0, pos, s => (s, pos)
  | f + 1, pos, s =>
    match input.get? pos with
    | none => (s, pos)
    | some c =>
        if isCssIdentChar c then consumeIdentGo input f (pos + 1) (s.push c)
        else (s, pos)

def consumeIdentAt (input : List Char) (start : Nat) : String × Nat :=
  consumeIdentGo input (input.length - start) start ""

/-- Result of one pull on the CSS tokenizer: `tok` is `Some(token)`, `ended`
is `None`, `crashed` the `unimplemented!` panic on an unsupported character,
`fuelOut` fuel exhaustion of the whitespace-skipping loop. -/
inductive CssTokResult where
  | tok (t : CssToken) (tz : CssTokenizer)
  | ended
  | crashed
  | fuelOut
deriving DecidableEq, Repr

/-- The `while self.pos < input.len()` loop of
`<CssTokenizer as Iterator>::next`; the arms follow the source order (the
`' ' | '\n'` arm is unreachable after the `is_whitespace` skip but is kept). -/
def cssNextGo : Nat → CssTokenizer → CssTokResult
  | 0, _ => .fuelOut
  | f + 1, tz =>
    match tz.input.get? tz.pos with
    | none => .ended
    | some c =>
        if isRustWhitespace c then cssNextGo f { tz with pos := tz.pos + 1 }
        else if c = '(' then .tok .openParenthesis { tz with pos := tz.pos + 1 }
        else if c = ')' then .tok .closeParenthesis { tz with pos := tz.pos + 1 }
        else if c = ',' then .tok (.delim ',') { tz with pos := tz.pos + 1 }
        else if c = '.' then .tok (.delim '.') { tz with pos := tz.pos + 1 }
        else if c = ':' then .tok .colon { tz with pos := tz.pos + 1 }
        else if c = ';' then .tok .semiColon { tz with pos := tz.pos + 1 }
        else if c = openCurlyChar then .tok .openCurly { tz with pos := tz.pos + 1 }
        else if c = closeCurlyChar then .tok .closeCurly { tz with pos := tz.pos + 1 }
        else if c = ' ' ∨ c = '\n' then cssNextGo f { tz with pos := tz.pos + 1 }
        else if c = dquoteChar ∨ c = squoteChar then
          let sp := consumeStringAt tz.input tz.pos
          .tok (.stringToken sp.1) { tz with pos := sp.2 + 1 }
        else if isAsciiDigit c then
          let np := consumeNumericAt tz.input tz.pos
          .tok (.number np.1) { tz with pos := np.2 }
        else if c = '#' then
          let ip := consumeIdentAt tz.input tz.pos
          .tok (.hashToken ip.1) { tz with pos := ip.2 }
        else if c = '-' then
          let ip := consumeIdentAt tz.input tz.pos
          .tok (.ident ip.1) { tz with pos := ip.2 }
        else if c = '@' then
          if ((tz.input.get? (tz.pos + 1)).map isAsciiAlpha).getD false then
            let ip := consumeIdentAt tz.input (tz.pos + 1)
            .tok (.atKeyword ip.1) { tz with pos := ip.2 }
          else .tok (.delim '@') { tz with pos := tz.pos + 1 }
        else if isAsciiAlpha c ∨ c = '_' then
          let ip := consumeIdentAt tz.input tz.pos
          .tok (.ident ip.1) { tz with pos := ip.2 }
        else .crashed

/-- `<CssTokenizer as Iterator>::next`; the loop advances `pos` each
iteration, so `input.length - pos + 1` units of fuel always suffice. -/
def cssNext (tz : CssTokenizer) : CssTokResult :=
  cssNextGo (tz.input.length - tz.pos + 1) tz

/-- Pulls CSS tokens to exhaustion; `none` when a pull crashes or runs out
of fuel. -/
def cssTokenizeAll : Nat → CssTokenizer → Option (List CssToken)
  | 0, _ => none
  | f + 1, tz =>
    match cssNext tz with
    | .tok t tz2 =>
        match cssTokenizeAll f tz2 with
        | some ts => some (t :: ts)
        | none => none
    | .ended => some []
    | .crashed => none
    | .fuelOut => none

/-! ## CSSOM parser (renderer/css/cssom.rs)

The Rust `CssParser` wraps a `Peekable<CssTokenizer>`; since the tokenizer
is a pure function of its input, the embedding runs the parser over the
already-produced token list, where `peek` is the head of the list and
`next` removes it. -/

structure Declaration where
  property : String
  value : CssToken
deriving DecidableEq, Repr

inductive Selector where
  | typeSelector (s : String)
  | classSelector (s : String)
  | idSelector (s : String)
  | unknownSelector
deriving DecidableEq, Repr

structure QualifiedRule where
  selector : Selector
  declarations : List Declaration
deriving DecidableEq, Repr

/-- `QualifiedRule::new`. -/
def QualifiedRule.new : QualifiedRule := ⟨.typeSelector "", []⟩

structure StyleSheet where
  rules : List QualifiedRule
deriving DecidableEq, Repr

/-- `CssParser::consume_ident`: panics (`none`) when the next token is
missing or not an identifier. -/
def consumeIdentTok : List CssToken → Option (String × List CssToken)
  | .ident i :: ts => some (i, ts)
  | _ => none

/-- `CssParser::consume_declaration`.  Outer `none` is a panic
(`consume_component_value` on exhausted input); `some (none, ts)` is the
"no declaration" return (peeked nothing, or missing colon — the offending
token is consumed); `some (some d, ts)` a parsed declaration. -/
def consumeDeclaration : List CssToken → Option (Option Declaration × List CssToken)
  | [] => some (none, [])
  | t :: ts =>
      match consumeIdentTok (t :: ts) with
      | none => none
      | some (prop, ts1) =>
          match ts1 with
          | [] => some (none, [])
          | .colon :: rest =>
              match rest with
              | [] => none
              | v :: rest2 => some (some ⟨prop, v⟩, rest2)
          | _ :: rest => some (none, rest)

/-- `CssParser::consume_list_of_declarations`, one fuel unit per loop
iteration (every iteration consumes at least one token, so fuel
`length + 1` suffices at every call site below). -/
def consumeListOfDeclarations : Nat → List CssToken → Option (List Declaration × List CssToken)
  | 0, _ => none
  | f + 1, ts =>
      match ts with
      | [] => some ([], [])
      | .closeCurly :: rest => some ([], rest)
      | .semiColon :: rest => consumeListOfDeclarations f rest
      | .ident i :: rest =>
          match consumeDeclaration (.ident i :: rest) with
          | none => none
          | some (some d, ts2) =>
              match consumeListOfDeclarations f ts2 with
              | some (ds, ts3) => some (d :: ds, ts3)
              | none => none
          | some (none, ts2) => consumeListOfDeclarations f ts2
      | _ :: rest => consumeListOfDeclarations f rest

/-- The `while peek != OpenCurly next()` skips in `consume_selector`; on
exhausted input the source loops forever (`none`). -/
def skipUntilOpenCurly : List CssToken → Option (List CssToken)
  | [] => none
  | t :: ts => if t = .openCurly then some (t :: ts) else skipUntilOpenCurly ts

/-- Drops the leading `#` of a hash-token value (`value[1..]`). -/
def dropFirstChar (s : String) : String :=
  String.mk s.data.tail

/-- `CssParser::consume_selector`; `none` collects the `panic!` paths and
the diverging skip on exhausted input. -/
def consumeSelector : List CssToken → Option (Selector × List CssToken)
  | [] => none
  | t :: ts =>
      match t with
      | .hashToken v => some (.idSelector (dropFirstChar v), ts)
      | .delim d =>
          if d = '.' then
            match consumeIdentTok ts with
            | some (i, ts2) => some (.classSelector i, ts2)
            | none => none
          else none
      | .ident i =>
          match ts with
          | .colon :: _ =>
              match skipUntilOpenCurly ts with
              | some ts2 => some (.typeSelector i, ts2)
              | none => none
          | _ => some (.typeSelector i, ts)
      | .atKeyword _ =>
          match skipUntilOpenCurly ts with
          | some ts2 => some (.unknownSelector, ts2)
          | none => none
      | _ => some (.unknownSelector, ts.drop 1)

/-- `CssParser::consume_qualified_rule`: the loop overwrites the rule's
selector until an OpenCurly starts the declaration block; `some (none, ts)`
is the "peeked nothing" return. -/
def consumeQualifiedRuleGo : Nat → QualifiedRule → List CssToken →
    Option (Option QualifiedRule × List CssToken)
  | 0, _, _ => none
  | f + 1, rule, ts =>
      match ts with
      | [] => some (none, [])
      | .openCurly :: rest =>
          match consumeListOfDeclarations (rest.length + 1) rest with
          | some (ds, ts2) => some (some { rule with declarations := ds }, ts2)
          | none => none
      | t :: rest =>
          match consumeSelector (t :: rest) with
          | some (sel, ts2) => consumeQualifiedRuleGo f { rule with selector := sel } ts2
          | none => none

def consumeQualifiedRule (ts : List CssToken) : Option (Option QualifiedRule × List CssToken) :=
  consumeQualifiedRuleGo (ts.length + 1) QualifiedRule.new ts

/-- `CssParser::consume_list_of_rules`: at-keyword-led rules are consumed
and discarded; a `None` qualified rule ends the list. -/
def consumeListOfRules : Nat → List CssToken → Option (List QualifiedRule)
  | 0, _ => none
  | f + 1, ts =>
      match ts with
      | [] => some []
      | .atKeyword kw :: rest =>
          match consumeQualifiedRule (.atKeyword kw :: rest) with
          | some (_, ts2) => consumeListOfRules f ts2
          | none => none
      | t :: rest =>
          match consumeQualifiedRule (t :: rest) with
          | some (some r, ts2) =>
              match consumeListOfRules f ts2 with
              | some rs => some (r :: rs)
              | none => none
          | some (none, _) => some []
          | none => none

/-- `CssParser::parse_stylesheet` over a token list. -/
def parseStylesheet (ts : List CssToken) : Option StyleSheet :=
  (consumeListOfRules (ts.length + 1) ts).map StyleSheet.mk

/-- `CssParser::new(CssTokenizer::new(css)).parse_stylesheet()`. -/
def parseCss (css : String) : Option StyleSheet :=
  match cssTokenizeAll (css.length + 1) (CssTokenizer.new css) with
  | some ts => parseStylesheet ts
  | none => none

/-! ## Inputs named by the claims -/

def c1Input : String := "<html><head></head><body><p></p></body></html>"

def c2Input : String := "<html><head></head><body>text</body></html>"

def c3Input : String := "<html><head><style>ab</style></head></html>"

def c5Input : String := "<script>a<b>c</script>"

def c7Input : String := "<html><head></head><body></body></html>"

def c7bInput : String := "<html><head><style>ab"

def c8Input : String := "p \x7b foo bar; color: red; \x7d"

/-! ## Non-termination of construct_tree (claim C1)

Once the parser is in InHead holding a known start tag other than
body/style/script, with no head element on the stack, it ping-pongs:
InHead pops until head (emptying the stack), goes to AfterHead without
consuming the token; AfterHead inserts a synthetic body, goes back to
InHead (parser.rs line 172) still without consuming the token. -/

/-- Runs `n` loop iterations of `construct_tree` and returns the
intermediate state instead of consuming fuel: `inl` when the run finishes,
crashes or pulls a failing tokenizer within `n` steps, `inr` the
configuration after `n` steps. -/
def iterate : Nat → ParserState → Option HtmlToken →
    Sum RunResult (ParserState × Option HtmlToken)
  | 0, st, tok => .inr (st, tok)
  | n + 1, st, tok =>
    match tok with
    | none => .inl (.finished st)
    | some tk =>
      match parseStep st tk with
      | .ret st2 => .inl (.finished st2)
      | .crash => .inl .crashed
      | .cont st2 tok2 => iterate n st2 tok2
      | .contPull st2 =>
          match tokNext st2.tokenizer with
          | .emitted t tz => iterate n { st2 with tokenizer := tz } (some t)
          | .ended tz => iterate n { st2 with tokenizer := tz } none
          | .crashed _ => .inl .crashed
          | .fuelOut => .inl .fuelOut

/-- `iterate` with the initial token pull of `construct_tree` in front. -/
def runIter (html : String) (n : Nat) : Sum RunResult (ParserState × Option HtmlToken) :=
  let st := initParser html
  match tokNext st.tokenizer with
  | .emitted t tz => iterate n { st with tokenizer := tz } (some t)
  | .ended tz => iterate n { st with tokenizer := tz } none
  | .crashed _ => .inl .crashed
  | .fuelOut => .inl .fuelOut

theorem constructTree_of_iterate :
    ∀ (n g : Nat) (st : ParserState) (tok : Option HtmlToken)
      (st2 : ParserState) (tok2 : Option HtmlToken),
      iterate n st tok = .inr (st2, tok2) →
      constructTree (n + g) st tok = constructTree g st2 tok2 := by
  intro n
  induction n with
  | zero =>
      intro g st tok st2 tok2 h
      simp only [iterate, Sum.inr.injEq, Prod.mk.injEq] at h
      rw [Nat.zero_add, h.1, h.2]
  | succ n ih =>
      intro g st tok st2 tok2 h
      have hadd : n + 1 + g = (n + g) + 1 := by omega
      rw [hadd]
      simp only [iterate] at h
      match tok with
      | none => simp at h
      | some tk =>
          simp only [constructTree]
          dsimp only at h
          cases hps : parseStep st tk with
          | ret st3 => rw [hps] at h; simp at h
          | crash => rw [hps] at h; simp at h
          | cont st3 tok3 =>
              rw [hps] at h
              dsimp only at h ⊢
              exact ih g st3 tok3 st2 tok2 h
          | contPull st3 =>
              rw [hps] at h
              dsimp only at h ⊢
              cases htk : tokNext st3.tokenizer with
              | emitted t tz =>
                  rw [htk] at h
                  dsimp only at h ⊢
                  exact ih g _ _ st2 tok2 h
              | ended tz =>
                  rw [htk] at h
                  dsimp only at h ⊢
                  exact ih g _ _ st2 tok2 h
              | crashed w => rw [htk] at h; simp at h
              | fuelOut => rw [htk] at h; simp at h

theorem runParser_of_runIter :
    ∀ (html : String) (n g : Nat) (st2 : ParserState) (tok2 : Option HtmlToken),
      runIter html n = .inr (st2, tok2) →
      runParser html (n + g) = constructTree g st2 tok2 := by
  intro html n g st2 tok2 h
  simp only [runIter] at h
  simp only [runParser]
  cases htk : tokNext (initParser html).tokenizer with
  | emitted t tz =>
      rw [htk] at h
      dsimp only at h ⊢
      exact constructTree_of_iterate n g _ _ st2 tok2 h
  | ended tz =>
      rw [htk] at h
      dsimp only at h ⊢
      exact constructTree_of_iterate n g _ _ st2 tok2 h
  | crashed w => rw [htk] at h; simp at h
  | fuelOut => rw [htk] at h; simp at h

/-- The start-tag token for `p` that drives the InHead/AfterHead cycle. -/
def pTok : HtmlToken := HtmlToken.startTag "p" false []

/-- No stack entry is a head element (and every entry is a live index). -/
def noHeadStack (nodes : List PNode) (stack : List Nat) : Prop :=
  ∀ i ∈ stack, i < nodes.length ∧ elementKindAt nodes i ≠ some ElementKind.head

def noHeadStackB (nodes : List PNode) (stack : List Nat) : Bool :=
  stack.all fun i =>
    decide (i < nodes.length) && decide (elementKindAt nodes i ≠ some ElementKind.head)

theorem noHeadStackB_sound (nodes : List PNode) (stack : List Nat)
    (h : noHeadStackB nodes stack = true) : noHeadStack nodes stack := by
  intro i hi
  have hb := List.all_eq_true.mp h i hi
  simp only [Bool.and_eq_true, decide_eq_true_eq] at hb
  exact hb

theorem popUntil_head_of_noHead (nodes : List PNode) (stack : List Nat)
    (h : ∀ i ∈ stack, elementKindAt nodes i ≠ some ElementKind.head) :
    popUntil nodes .head stack = [] := by
  induction stack with
  | nil => rfl
  | cons i rest ih =>
      simp only [popUntil]
      rw [if_neg (h i (by simp))]
      exact ih fun j hj => h j (by simp [hj])

theorem length_modifyNode (nodes : List PNode) (i : Nat) (f : PNode → PNode) :
    (modifyNode nodes i f).length = nodes.length := by
  induction nodes generalizing i with
  | nil => rfl
  | cons n rest ih =>
      cases i with
      | zero => rfl
      | succ j => simpa [modifyNode] using ih j

theorem kindAt_modifyNode (nodes : List PNode) (i j : Nat) (f : PNode → PNode)
    (hf : ∀ n, (f n).kind = n.kind) :
    kindAt (modifyNode nodes i f) j = kindAt nodes j := by
  induction nodes generalizing i j with
  | nil => rfl
  | cons n rest ih =>
      cases i with
      | zero =>
          cases j with
          | zero => simp [modifyNode, kindAt, hf]
          | succ jj => rfl
      | succ ii =>
          cases j with
          | zero => rfl
          | succ jj => exact ih ii jj

theorem length_appendAsLastChild (nodes1 : List PNode) (ci ni : Nat) :
    (appendAsLastChild nodes1 ci ni).length = nodes1.length := by
  simp only [appendAsLastChild]
  cases (nodes1.get? ci).bind PNode.firstChild <;>
    simp [length_modifyNode]

theorem kindAt_appendAsLastChild (nodes1 : List PNode) (ci ni j : Nat) :
    kindAt (appendAsLastChild nodes1 ci ni) j = kindAt nodes1 j := by
  simp only [appendAsLastChild]
  cases (nodes1.get? ci).bind PNode.firstChild <;>
    simp [kindAt_modifyNode, fun n => rfl]

theorem kindAt_append_lt (nodes : List PNode) (x : PNode) (j : Nat)
    (h : j < nodes.length) : kindAt (nodes ++ [x]) j = kindAt nodes j := by
  simp only [kindAt, List.get?_eq_getElem?]
  rw [List.getElem?_append_left h]

theorem kindAt_append_self (nodes : List PNode) (x : PNode) :
    kindAt (nodes ++ [x]) nodes.length = some x.kind := by
  simp only [kindAt, List.get?_eq_getElem?]
  rw [List.getElem?_concat_length]
  rfl

/-- What `insert_element` does to the parser state when the tag name is
recognized: one fresh element node appended to the arena, its index pushed
onto the stack, and every node kind unchanged. -/
theorem insertElement_spec (st : ParserState) (tag : String)
    (attrs : List HtmlTagAttribute) (k : ElementKind)
    (hk : elementKindFromStr tag = some k) :
    ∃ nodes2,
      insertElement st tag attrs
        = some { st with nodes := nodes2, stack := st.nodes.length :: st.stack }
      ∧ nodes2.length = st.nodes.length + 1
      ∧ (∀ j, kindAt nodes2 j = kindAt (st.nodes ++ [Node.new (.element ⟨k, attrs⟩)]) j) := by
  refine ⟨appendAsLastChild (st.nodes ++ [Node.new (.element ⟨k, attrs⟩)])
      (match st.stack with | i :: _ => i | [] => 0) st.nodes.length, ?_, ?_, ?_⟩
  · simp only [insertElement, hk]
  · rw [length_appendAsLastChild]
    simp
  · intro j
    exact kindAt_appendAsLastChild _ _ _ j

theorem elementKindAt_of_kindAt (ns ms : List PNode) (i : Nat)
    (h : kindAt ns i = kindAt ms i) : elementKindAt ns i = elementKindAt ms i := by
  simp only [elementKindAt, h]

/-- In InHead or AfterHead with the `<p>` start tag in hand and no head
element on the stack, `construct_tree` consumes fuel forever: InHead pops
to an empty stack and reprocesses the token in AfterHead, which inserts a
synthetic body, returns to InHead and reprocesses the same token again. -/
theorem constructTree_cycle_fuelOut :
    ∀ (f : Nat) (st : ParserState),
      (st.mode = .inHead ∨ st.mode = .afterHead) →
      noHeadStack st.nodes st.stack →
      constructTree f st (some pTok) = .fuelOut := by
  intro f
  induction f with
  | zero => intro st _ _; rfl
  | succ f ih =>
      intro st hm h
      obtain ⟨nodes, mode, om, stack, tz⟩ := st
      simp only at hm h
      rcases hm with hm | hm
      · subst hm
        have hstep :
            constructTree (f + 1) ⟨nodes, .inHead, om, stack, tz⟩ (some pTok)
              = constructTree f
                  ⟨nodes, .afterHead, om, popUntil nodes .head stack, tz⟩ (some pTok) := rfl
        rw [hstep, popUntil_head_of_noHead nodes stack fun i hi => (h i hi).2]
        exact ih _ (Or.inr rfl) (by intro i hi; simp at hi)
      · subst hm
        obtain ⟨nodes2, heq, hlen, hkinds⟩ :=
          insertElement_spec ⟨nodes, .afterHead, om, stack, tz⟩ "body" [] .body rfl
        have hstep :
            constructTree (f + 1) ⟨nodes, .afterHead, om, stack, tz⟩ (some pTok)
              = (match insertElement ⟨nodes, .afterHead, om, stack, tz⟩ "body" [] with
                 | some st2 => constructTree f { st2 with mode := .inHead } (some pTok)
                 | none => .crashed) := rfl
        rw [hstep, heq]
        simp only at hlen hkinds ⊢
        refine ih _ (Or.inl rfl) ?_
        intro i hi
        simp only at hi ⊢
        rcases List.mem_cons.mp hi with hi | hi
        · subst hi
          constructor
          · omega
          · have hki := hkinds nodes.length
            rw [kindAt_append_self] at hki
            rw [elementKindAt, hki]
            simp [Node.new]
        · obtain ⟨hlt, hnk⟩ := h i hi
          constructor
          · omega
          · have hki := hkinds i
            rw [kindAt_append_lt _ _ _ hlt] at hki
            rw [elementKindAt_of_kindAt _ _ _ hki]
            exact hnk

/-- Closed check that five loop iterations after the first token pull on
`c1Input` arrive at the InHead configuration holding the `<p>` start tag
with no head element on the stack. -/
def c1CycleCheck : Bool :=
  match runIter c1Input 5 with
  | Sum.inr (st, tok) =>
      decide (tok = some pTok) && decide (st.mode = InsertionMode.inHead)
        && noHeadStackB st.nodes st.stack
  | Sum.inl _ => false

theorem c1CycleCheck_true : c1CycleCheck = true := by decide

/-- C1: the claim states that `HtmlParser::construct_tree` terminates on
every finite input, in particular on the well-formed document
`"<html><head></head><body><p></p></body></html>"`.  It does not: on that
very document the run exhausts any amount of fuel (the AfterHead arm
switches back to InHead after inserting the body — parser.rs lines 161/172
— so a later `<p>` start tag cycles between InHead and AfterHead without
ever consuming a token), contradicting the repository's own
`test_multiple_nodes`/`test_text` tests, which expect such parses to
return. -/
theorem c1_construct_tree_diverges :
    ∀ fuel : Nat, runParser c1Input fuel = RunResult.fuelOut := by
  intro fuel
  rcases Nat.lt_or_ge fuel 5 with hf | hf
  · interval_cases fuel <;> rfl
  · obtain ⟨g, rfl⟩ : ∃ g, fuel = 5 + g := ⟨fuel - 5, by omega⟩
    have hcheck := c1CycleCheck_true
    unfold c1CycleCheck at hcheck
    cases hit : runIter c1Input 5 with
    | inl r => rw [hit] at hcheck; simp at hcheck
    | inr pr =>
        obtain ⟨stS, tokS⟩ := pr
        rw [hit] at hcheck
        dsimp only at hcheck
        simp only [Bool.and_eq_true, decide_eq_true_eq] at hcheck
        obtain ⟨⟨h1, h2⟩, h3⟩ := hcheck
        have hbridge := runParser_of_runIter c1Input 5 g stS tokS hit
        rw [hbridge, h1]
        exact constructTree_cycle_fuelOut g stS (Or.inl h2) (noHeadStackB_sound _ _ h3)

/-! ## Claim theorems -/

/-- C2: the claim (and the repository's own `test_text`) expects parsing
`"<html><head></head><body>text</body></html>"` to give the body element a
Text("text") first child.  Evaluating the embedded parser at that input:
the parse finishes, node 3 is the body element, and its first child is
`none` — the characters were consumed and ignored because the AfterHead arm
moved to InHead (parser.rs line 161) instead of InBody, and InHead discards
character tokens. -/
theorem c2_body_has_no_children :
    (match runParser c2Input 100 with
     | .finished st =>
         decide (kindAt st.nodes 3 = some (NodeKind.element ⟨.body, []⟩))
           && decide ((st.nodes.get? 3).bind PNode.firstChild = none)
           && decide ((st.nodes.get? 0).bind PNode.firstChild = some 1)
           && decide (kindAt st.nodes 1 = some (NodeKind.element ⟨.html, []⟩))
     | _ => false) = true := by decide

/-- C3: the claim (and the source comment above the branch) says a character
inserted while the last inserted child is a Text node is appended to that
node's string, so `style` content "ab" should give Text("ab").  Evaluating
the embedded parser on `"<html><head><style>ab</style></head></html>"`:
the style element (node 3) has exactly one Text child (node 4) whose value
is "a" — the second character was pushed onto a clone returned by
`node_kind()` and lost. -/
theorem c3_text_coalescing_is_noop :
    (match runParser c3Input 100 with
     | .finished st =>
         decide (kindAt st.nodes 3 = some (NodeKind.element ⟨.style, []⟩))
           && decide ((st.nodes.get? 3).bind PNode.firstChild = some 4)
           && decide (kindAt st.nodes 4 = some (NodeKind.text "a"))
           && decide ((st.nodes.get? 4).bind PNode.nextSibling = none)
     | _ => false) = true := by decide

/-- C4 counterexample: on the empty input the very first pull returns
"no more input" and the whole token stream is empty — no Eof token is ever
emitted, refuting "emits exactly one Eof token, then subsequent pulls yield
no more input". -/
theorem c4_counterexample_no_eof_token :
    tokenizeAll 10 (HtmlTokenizer.new "") = some []
      ∧ tokNext (HtmlTokenizer.new "") = TokResult.ended (HtmlTokenizer.new "") :=
  ⟨rfl, rfl⟩

/-- C4 amended: once the tokenizer's position has reached the input length,
every pull returns "no more input" (None) immediately; no Eof token
precedes it (the `is_eof` guard `pos > len` is beyond the reachable range,
so the Eof-emitting branches never fire before the `pos >= len` early
return). -/
theorem c4_exhausted_pull_returns_none (tz : HtmlTokenizer)
    (h : tz.input.length ≤ tz.pos) : tokNext tz = TokResult.ended tz := by
  simp only [tokNext, if_pos h]

def spentTokenizer : HtmlTokenizer :=
  { state := .data, pos := 1, reconsume := false, latestToken := none,
    input := ['x'], buf := [] }

theorem c4_exhausted_pull_returns_none_witness :
    spentTokenizer.input.length ≤ spentTokenizer.pos
      ∧ tokNext spentTokenizer = TokResult.ended spentTokenizer :=
  ⟨by decide, c4_exhausted_pull_returns_none spentTokenizer (by decide)⟩

/-- C5 counterexample: in `"<script>a<b>c</script>"` the `<b>` is emitted as
a StartTag token for `b`, refuting "the literal `<` characters are emitted
as ordinary Char tokens, not as a StartTag token for `b`". -/
theorem c5_counterexample_b_start_tag_emitted :
    (tokenizeAll 100 (HtmlTokenizer.new c5Input)).map
        (fun ts => ts.any fun t => decide (t = HtmlToken.startTag "b" false []))
      = some true := by decide

/-- C5 amended: no transition ever enters the ScriptData state (the
ScriptData family is dead code), so after a `script` start tag the content
is tokenized as ordinary markup: `"<script>a<b>c</script>"` yields a
StartTag for `b` between the Char tokens. -/
theorem c5_script_content_tokenized_as_markup :
    tokenizeAll 100 (HtmlTokenizer.new c5Input)
      = some [HtmlToken.startTag "script" false [], HtmlToken.char 'a',
              HtmlToken.startTag "b" false [], HtmlToken.char 'c',
              HtmlToken.endTag "script"] := by decide

/-- C6: the input `"<"` ends while the tokenizer is inside a token; the next
pull calls `consume_next_character` with `pos` already at the end of input,
reaching the out-of-bounds index `self.input[self.pos - 1]` — the error
branch of the total embedding. -/
theorem c6_pull_reaches_out_of_bounds_index :
    tokNext (HtmlTokenizer.new "<") = TokResult.crashed TokCrash.indexOutOfBounds := by
  decide

/-- C7 counterexample: after `construct_tree` returns on the fully closed
document `"<html><head></head><body></body></html>"` the stack of open
elements still holds two entries (the body and html elements), refuting
"empty again after construct_tree returns". -/
theorem c7_counterexample_stack_not_empty :
    (match runParser c7Input 100 with
     | .finished st => decide (st.stack = [3, 1])
     | _ => false) = true ∧ ([3, 1] : List Nat) ≠ [] :=
  ⟨by decide, by decide⟩

/-- C7 amended: the stack is empty before parsing starts, but after
`construct_tree` returns on `"<html><head></head><body></body></html>"` it
still holds the body and html elements (only head was popped), and it can
hold Text nodes: `insert_char` pushes the Text node it creates, as the run
on `"<html><head><style>ab"` shows (node 4, a Text node, is on the final
stack). -/
theorem c7_stack_contents :
    (initParser c7Input).stack = []
      ∧ (match runParser c7Input 100 with
         | .finished st =>
             decide (st.stack = [3, 1])
               && decide (elementKindAt st.nodes 3 = some ElementKind.body)
               && decide (elementKindAt st.nodes 1 = some ElementKind.html)
         | _ => false) = true
      ∧ (match runParser c7bInput 100 with
         | .finished st =>
             decide (st.stack = [4, 3, 2, 1])
               && decide (kindAt st.nodes 4 = some (NodeKind.text "a"))
         | _ => false) = true :=
  ⟨rfl, by decide, by decide⟩

/-- C8: a declaration whose colon is missing is skipped —
`consume_declaration` consumes the identifier and the offending token and
returns no declaration — and the declaration-list loop continues with the
remaining tokens; concretely, parsing
`"p { foo bar; color: red; }"` still yields the declaration
`color: Ident("red")`. -/
theorem c8_missing_colon_skipped :
    (∀ (f : Nat) (i : String) (t : CssToken) (rest : List CssToken),
        t ≠ CssToken.colon →
        consumeListOfDeclarations (f + 1) (.ident i :: t :: rest)
          = consumeListOfDeclarations f rest)
      ∧ parseCss c8Input
          = some ⟨[⟨.typeSelector "p", [⟨"color", .ident "red"⟩]⟩]⟩ := by
  constructor
  · intro f i t rest ht
    cases t <;> first
      | rfl
      | exact absurd rfl ht
  · decide

theorem c8_missing_colon_skipped_witness :
    (CssToken.ident "bar" ≠ CssToken.colon)
      ∧ consumeListOfDeclarations 4
          [CssToken.ident "foo", CssToken.ident "bar", CssToken.semiColon]
        = consumeListOfDeclarations 3 [CssToken.semiColon] :=
  ⟨by decide,
   c8_missing_colon_skipped.1 3 "foo" (CssToken.ident "bar") [CssToken.semiColon]
     (by decide)⟩

/-- The property stated by claim C9: no Ident token's string contains a
hash character. -/
def cssIdentsHashFree (ts : List CssToken) : Bool :=
  ts.all fun t =>
    match t with
    | .ident s => !(s.data.any fun c => decide (c = '#'))
    | _ => true

/-- C9 counterexample: tokenizing `"a#b"` produces an Ident token whose
string contains `#` — `consume_ident_at` accepts `#` at every position, so
`#` after the first character does not terminate the token. -/
theorem c9_counterexample_ident_contains_hash :
    (cssTokenizeAll 10 (CssTokenizer.new "a#b")).map cssIdentsHashFree
      = some false := by decide

/-- C9 amended: the characters accepted inside an identifier are exactly
ASCII alphanumerics, `-`, `_` and `#`, with `#` accepted at any position
(not only as the leading character of a hash token): `"a#b"` tokenizes to
`Ident("a#b")`, `"#a#b"` to `HashToken("#a#b")`, and every character
accumulated by `consume_ident_at` satisfies that character class. -/
theorem c9_hash_accepted_anywhere :
    cssTokenizeAll 10 (CssTokenizer.new "a#b") = some [CssToken.ident "a#b"]
      ∧ cssTokenizeAll 10 (CssTokenizer.new "#a#b") = some [CssToken.hashToken "#a#b"]
      ∧ (∀ (input : List Char) (start : Nat) (c : Char),
           c ∈ (consumeIdentAt input start).1.data → isCssIdentChar c = true) := by
  refine ⟨by decide, by decide, ?_⟩
  intro input start c hc
  have key : ∀ (fuel pos : Nat) (acc : String),
      c ∈ (consumeIdentGo input fuel pos acc).1.data →
      c ∈ acc.data ∨ isCssIdentChar c = true := by
    intro fuel
    induction fuel with
    | zero => intro pos acc h; exact Or.inl h
    | succ f ih =>
        intro pos acc h
        simp only [consumeIdentGo] at h
        cases hg : input.get? pos with
        | none => rw [hg] at h; exact Or.inl h
        | some ch =>
            rw [hg] at h
            dsimp only at h
            by_cases hch : isCssIdentChar ch = true
            · rw [if_pos hch] at h
              rcases ih (pos + 1) (acc.push ch) h with hmem | hok
              · simp only [String.push, String.data] at hmem
                rcases List.mem_append.mp hmem with hmem | hmem
                · exact Or.inl hmem
                · simp only [List.mem_singleton] at hmem
                  subst hmem
                  exact Or.inr hch
              · exact Or.inr hok
            · rw [if_neg hch] at h
              exact Or.inl h
  rcases key (input.length - start) start "" hc with hmem | hok
  · simp at hmem
  · exact hok

theorem c9_hash_accepted_anywhere_witness :
    ('#' ∈ (consumeIdentAt ("a#b".data) 0).1.data) ∧ isCssIdentChar '#' = true :=
  ⟨by decide, c9_hash_accepted_anywhere.2.2 ("a#b".data) 0 '#' (by decide)⟩

/-- C10: equality on Node (and NodeKind) compares only the node kind: any
two Text nodes compare equal regardless of their strings, any two Element
nodes with the same ElementKind compare equal regardless of their attribute
lists, and Node equality is exactly NodeKind equality of the `kind` fields. -/
theorem c10_equality_compares_kind_only :
    (∀ s1 s2 : String, nodeKindEq (.text s1) (.text s2) = true)
      ∧ (∀ (k : ElementKind) (a1 a2 : List HtmlTagAttribute),
           nodeKindEq (.element ⟨k, a1⟩) (.element ⟨k, a2⟩) = true)
      ∧ (∀ n1 n2 : PNode, nodeEq n1 n2 = nodeKindEq n1.kind n2.kind) :=
  ⟨fun _ _ => rfl, fun k a1 a2 => by simp [nodeKindEq], fun _ _ => rfl⟩
